import Mathlib

/-!
Verification development for the FluxFile fast_fs core (cpp_src/fast_fs.cpp).

The C++ core is shallowly embedded as executable Lean functions:

* the BLAKE3 hasher state is modelled, per the incremental-update contract of
  blake3.h (update may be called with any chunking and is insensitive to chunk
  boundaries), as the list of bytes fed to it so far; the external primitive's
  finalize step is an arbitrary function from that accumulated input to the
  32-byte output buffer (`Finalizer`), since BLAKE3 itself is a vendored
  external collaborator whose compression function is not part of this
  repository;
* a file on disk, as seen by one hashing call, is a `PathState`: the outcomes
  of the fs::exists / fs::is_regular_file / ifstream-open probes, the byte
  contents, and whether a read error (badbit) occurs;
* the read-and-update loop of calculate_blake3 is a fuelled step function
  `hashLoopFuel`, so that non-termination (chunk_size = 0 makes no progress)
  is representable as `none`;
* the directory tree seen by scandir_recursive is an inductive `Entry` tree,
  including `bad` entries whose metadata collection throws a filesystem_error
  (caught per entry in the C++ loop);
* clock samples (file clock and system clock, both in nanoseconds) are taken
  as call-level parameters.
-/

namespace FluxFile

/-! ### Hash engine (blake3.h collaborator) and hex rendering -/

/-- BLAKE3_OUT_LEN from blake3.h. -/
def BLAKE3_OUT_LEN : Nat := 32

/-- The external BLAKE3 primitive, abstracted: finalize maps the accumulated
input bytes to the 32-byte output buffer the C code always reads in full. -/
abbrev Finalizer := List Nat → Fin BLAKE3_OUT_LEN → Nat

/-- The hex_chars table of calculate_blake3, written as in the source:
static const char hex_chars[] = "0123456789abcdef". -/
def hexChars : List Char := "0123456789abcdef".data

/-- Table lookup hex_chars[n] for n already masked to four bits. -/
def hexChar (n : Nat) : Char := hexChars.getD n '0'

/-- Two hex characters per byte, high nibble first, as in the hex loop of
calculate_blake3: hex_chars[(b >> 4) & 0x0F] then hex_chars[b & 0x0F]. -/
def hexByte (b : Nat) : List Char := [hexChar ((b / 16) % 16), hexChar (b % 16)]

/-- Render a byte list as the lowercase hex string the C++ code builds. -/
def hexDigest (bytes : List Nat) : String := String.mk ((bytes.map hexByte).flatten)

/-- The 32-byte output buffer after blake3_hasher_finalize over the given
accumulated input. -/
def digestBytes (fz : Finalizer) (input : List Nat) : List Nat :=
  List.ofFn (fz input)

/-! ### The read-and-update loop of calculate_blake3

One iteration of `while (file) { file.read(buffer, chunk_size); ... }`:
with chunk_size = 0 the read extracts nothing and leaves the stream state
unchanged, so the loop makes no progress; with chunk_size >= 1 the read
extracts min(chunk_size, remaining) bytes and the final short read switches
the stream off. The fuel argument makes divergence observable as `none`. -/

def hashLoopFuel (chunk : Nat) : Nat → List Nat → List Nat → Option (List Nat)
  | 0, _, _ => none
  | fuel + 1, remaining, acc =>
    if chunk = 0 then
      hashLoopFuel chunk fuel remaining acc
    else if remaining.length < chunk then
      some (acc ++ remaining)
    else
      hashLoopFuel chunk fuel (remaining.drop chunk) (acc ++ remaining.take chunk)

/-- The loop run with enough fuel to cover every terminating execution:
`some consumed` when the loop exits, `none` when it diverges. -/
def loopConsumed (chunk : Nat) (bytes : List Nat) : Option (List Nat) :=
  hashLoopFuel chunk (bytes.length + 1) bytes []

/-- The filesystem's answers to the probes one hashing call performs on one
path: fs::exists, fs::is_regular_file, whether ifstream open succeeds, the
file's bytes, and whether a read failure (badbit) occurs during the loop. -/
structure PathState where
  pexists : Bool
  isRegular : Bool
  openOk : Bool
  bytes : List Nat
  readBad : Bool
deriving DecidableEq, Repr

/-- calculate_blake3: validate existence and regularity, open, run the
read-and-update loop, check badbit, finalize and hex-render. `none` models
the non-terminating loop (possible only when chunk = 0). -/
def calculate_blake3 (fz : Finalizer) (file_path : String) (st : PathState)
    (chunk_size : Nat) : Option (Except String String) :=
  if st.pexists = false then
    some (.error ("File does not exist: " ++ file_path))
  else if st.isRegular = false then
    some (.error ("Path is not a regular file: " ++ file_path))
  else if st.openOk = false then
    some (.error ("Cannot open file: " ++ file_path))
  else
    match loopConsumed chunk_size st.bytes with
    | none => none
    | some consumed =>
      if st.readBad then some (.error ("Error reading file: " ++ file_path))
      else some (.ok (hexDigest (digestBytes fz consumed)))

/-! ### Batch hashing (calculate_blake3_batch) -/

/-- Body of the worker lambda for one claimed index: returns the pair
(errors[idx], results[idx].second) the worker leaves in its two slots.
The worker uses the fixed 1 MiB chunk size and performs no existence or
regularity pre-checks; any failure leaves a nonempty error slot. The
`none` branch of the loop is unreachable because the chunk constant is
positive. -/
def workerJob (fz : Finalizer) (st : PathState) : String × String :=
  if st.openOk = false then ("Cannot open file", "")
  else
    match loopConsumed 1048576 st.bytes with
    | none => ("", "")
    | some consumed =>
      if st.readBad then ("Error reading file", "")
      else ("", hexDigest (digestBytes fz consumed))

/-- One entry of the returned batch mapping: a hex digest or an error
description. -/
inductive HashOut where
  | digest (hex : String)
  | err (msg : String)
deriving DecidableEq, Repr

/-- The merge step of the result-building loop: a slot pair is a success
exactly when errors[i] is empty and results[i].second is nonempty; otherwise
an error entry is built, defaulting to "Unknown error". -/
def mergeOutcome (slot : String × String) : HashOut :=
  if slot.1 = "" ∧ slot.2 ≠ "" then .digest slot.2
  else .err (if slot.1 = "" then "Unknown error" else slot.1)

/-- Python-dict insertion: overwrite in place when the key is present,
append otherwise. -/
def dictInsert (d : List (String × HashOut)) (k : String) (v : HashOut) :
    List (String × HashOut) :=
  if d.any (fun e => e.1 == k) then
    d.map (fun e => if e.1 == k then (k, v) else e)
  else d ++ [(k, v)]

/-- Python-dict lookup. -/
def dictLookup (d : List (String × HashOut)) (k : String) : Option HashOut :=
  (d.find? (fun e => e.1 == k)).map (fun e => e.2)

/-- calculate_blake3_batch. Every index is claimed by exactly one worker via
the atomic cursor and each result/error slot is written only by its claimant,
so the slot contents are the pure `workerJob` of that path regardless of the
worker count; the result dictionary is then built sequentially over the
indices. `_num_threads` is the worker-count argument, which the returned
mapping does not depend on. -/
def calculate_blake3_batch (fz : Finalizer) (fs : String → PathState)
    (file_paths : List String) (_num_threads : Int) : List (String × HashOut) :=
  file_paths.foldl (fun d p => dictInsert d p (mergeOutcome (workerJob fz (fs p)))) []

/-! ### Clock reconciliation (two code sites: scandir_recursive and
get_file_info)

Both clocks are sampled in nanoseconds; time_point_cast to seconds is
duration_cast, which truncates toward zero, hence Int.tdiv. -/

def nsPerSec : Int := 1000000000

/-- The mtime computation of scandir_recursive:
time_point_cast to seconds of sys_clock_now + (ftime - file_clock_now). -/
def scanReconcileMtime (ftime fileClockNow sysClockNow : Int) : Int :=
  (sysClockNow + (ftime - fileClockNow)).tdiv nsPerSec

/-- The mtime computation of get_file_info, same expression at its own site. -/
def probeReconcileMtime (ftime fileClockNow sysClockNow : Int) : Int :=
  (sysClockNow + (ftime - fileClockNow)).tdiv nsPerSec

/-! ### Directory walker (scandir_recursive) -/

/-- One directory entry as the recursive_directory_iterator presents it.
`file` carries the size and last_write_time; `dir` carries its
last_write_time and children (yielded after it, depth-first); `link` is a
symbolic link, `targetIsDir` being what entry.is_directory() — which follows
the link — answers for it; `bad` is an entry for which collecting metadata
(stat / file_size / last_write_time) throws a filesystem_error that the
per-entry catch turns into one recorded error string. -/
inductive Entry where
  | file (name : String) (size : Nat) (ftime : Int)
  | dir (name : String) (ftime : Int) (children : List Entry)
  | link (name : String) (targetIsDir : Bool) (ftime : Int)
  | bad (name : String) (msg : String)

/-- The hidden test of the scan loop, literally
`!filename.empty() && filename[0] == '.'`. -/
def isHiddenName (s : String) : Bool :=
  match s.data with
  | [] => false
  | c :: _ => c == '.'

/-- `a.find(b) == 0`: the character list `pre` is an initial segment of `s`. -/
def charsStartWith : List Char → List Char → Bool
  | _, [] => true
  | [], _ :: _ => false
  | c :: cs, d :: ds => c == d && charsStartWith cs ds

/-- The distinguished-marker test `err.find("Fatal error:") == 0`. -/
def isFatalMarked (s : String) : Bool :=
  charsStartWith s.data "Fatal error:".data

/-- path.filename() of the entry. -/
def entryName : Entry → String
  | .file n _ _ => n
  | .dir n _ _ => n
  | .link n _ _ => n
  | .bad n _ => n

/-- One FileInfo struct as pushed into the results vector. -/
structure FileInfo where
  path : String
  name : String
  size : Nat
  mtime : Int
  is_directory : Bool
  is_symlink : Bool
deriving DecidableEq, Repr

mutual

/-- The loop body of scandir_recursive for one yielded entry, together with
everything the iterator yields beneath it. In order:
1. depth check — when a limit is set and it.depth() has reached it the entry
   is skipped (continue) and recursion into it is disabled;
2. hidden check — a name starting with a dot, when hidden entries are
   excluded, is skipped, and for a directory recursion is disabled too;
3. metadata collection — a throwing entry contributes one error string; a
   symlink is recorded with entry.is_directory() (which follows the target)
   and size 0; a directory is recorded with size 0 and is followed by its
   children at depth + 1; a regular file is recorded with its byte size. -/
def scanOne (maxDepth : Nat) (includeHidden : Bool) (fcNow scNow : Int)
    (parent : String) (depth : Nat) (e : Entry) : List FileInfo × List String :=
  if maxDepth > 0 ∧ depth ≥ maxDepth then ([], [])
  else if includeHidden = false ∧ isHiddenName (entryName e) then ([], [])
  else
    match e with
    | .bad _ m => ([], [m])
    | .file n sz ft =>
      ([⟨parent ++ "/" ++ n, n, sz, scanReconcileMtime ft fcNow scNow, false, false⟩], [])
    | .link n t ft =>
      ([⟨parent ++ "/" ++ n, n, 0, scanReconcileMtime ft fcNow scNow, t, true⟩], [])
    | .dir n ft cs =>
      let sub := scanEntries maxDepth includeHidden fcNow scNow
        (parent ++ "/" ++ n) (depth + 1) cs
      (⟨parent ++ "/" ++ n, n, 0, scanReconcileMtime ft fcNow scNow, true, false⟩ :: sub.1,
        sub.2)

/-- The whole iteration over a sibling list at one depth, results and errors
accumulated in traversal order. -/
def scanEntries (maxDepth : Nat) (includeHidden : Bool) (fcNow scNow : Int)
    (parent : String) (depth : Nat) : List Entry → List FileInfo × List String
  | [] => ([], [])
  | e :: rest =>
    let h := scanOne maxDepth includeHidden fcNow scNow parent depth e
    let t := scanEntries maxDepth includeHidden fcNow scNow parent depth rest
    (h.1 ++ t.1, h.2 ++ t.2)

end

/-- The root argument of scandir_recursive after the two validation probes:
missing, not a directory, or a directory with the children the iterator
yields at depth 0. -/
inductive RootArg where
  | missing (path : String)
  | notDir (path : String)
  | ok (path : String) (children : List Entry)

/-- scandir_recursive: validate the root, traverse, then re-raise the first
accumulated error carrying the "Fatal error:" marker if any; otherwise
return the results vector — and only it — as the Python list. -/
def scandir_recursive (fcNow scNow : Int) (root : RootArg) (maxDepth : Nat)
    (includeHidden : Bool) : Except String (List FileInfo) :=
  match root with
  | .missing p => .error ("Path does not exist: " ++ p)
  | .notDir p => .error ("Path is not a directory: " ++ p)
  | .ok p cs =>
    let res := scanEntries maxDepth includeHidden fcNow scNow p 0 cs
    match res.2.find? (fun e => isFatalMarked e) with
    | some e => .error e
    | none => .ok res.1

/-- Depth-d truncation of an entry forest: nesting level is 1-based for the
root's children, entries at nesting level greater than d are removed. -/
def truncateEntries : Nat → List Entry → List Entry
  | 0, _ => []
  | _ + 1, [] => []
  | d + 1, .dir n ft cs :: rest =>
    .dir n ft (truncateEntries d cs) :: truncateEntries (d + 1) rest
  | d + 1, e :: rest => e :: truncateEntries (d + 1) rest

/-- Removal of every hidden entry (name starting with a dot) together with
its whole subtree. -/
def pruneHidden : List Entry → List Entry
  | [] => []
  | e :: rest =>
    if isHiddenName (entryName e) then pruneHidden rest
    else
      (match e with
        | .dir n ft cs => .dir n ft (pruneHidden cs)
        | x => x) :: pruneHidden rest

/-! ### Metadata prober (get_file_info) -/

/-- The file type reported by fs::status, which follows a terminal symlink. -/
inductive FileType where
  | regular
  | directory
  | blockDev
  | charDev
  | fifo
  | socket
  | other
deriving DecidableEq, BEq, Repr

/-- The filesystem's answers to get_file_info's probes on one path:
existence, the type of fs::status(path) (symlink-following), whether
fs::symlink_status(path) reports a symlink, fs::file_size, last_write_time
(nanoseconds on the file clock), and the permission bits of the
symlink-following status. -/
structure PathStat where
  pexists : Bool
  statusType : FileType
  linkIsSymlink : Bool
  byteSize : Nat
  ftime : Int
  perms : Nat
deriving DecidableEq, Repr

/-- One probed path: the path string, its decomposition as fs::path computes
it (filename, extension, parent_path — delegated to the external path
library), and the stat answers. -/
structure ProbeInput where
  path : String
  name : String
  extension : String
  parent : String
  stat : PathStat
deriving DecidableEq, Repr

/-- The dictionary get_file_info returns. -/
structure FileMetadata where
  path : String
  name : String
  extension : String
  parent : String
  is_regular_file : Bool
  is_directory : Bool
  is_symlink : Bool
  is_block_file : Bool
  is_character_file : Bool
  is_fifo : Bool
  is_socket : Bool
  size : Nat
  mtime : Int
  permissions : Nat
  is_readable : Bool
  is_writable : Bool
  is_executable : Bool
deriving DecidableEq, Repr

/-- get_file_info: fail fast when the path does not exist; otherwise the
non-symlink type fields come from the symlink-following status, is_symlink
from symlink_status, size is read only for regular files, the mtime is the
reconciled timestamp, and the three derived booleans mask owner bits
(owner_read = 0o400, owner_write = 0o200, owner_exec = 0o100). -/
def get_file_info (fcNow scNow : Int) (inp : ProbeInput) :
    Except String FileMetadata :=
  if inp.stat.pexists = false then
    .error ("Path does not exist: " ++ inp.path)
  else
    .ok ⟨inp.path, inp.name, inp.extension, inp.parent,
      inp.stat.statusType == .regular,
      inp.stat.statusType == .directory,
      inp.stat.linkIsSymlink,
      inp.stat.statusType == .blockDev,
      inp.stat.statusType == .charDev,
      inp.stat.statusType == .fifo,
      inp.stat.statusType == .socket,
      if inp.stat.statusType == .regular then inp.stat.byteSize else 0,
      probeReconcileMtime inp.stat.ftime fcNow scNow,
      inp.stat.perms,
      inp.stat.perms &&& 256 != 0,
      inp.stat.perms &&& 128 != 0,
      inp.stat.perms &&& 64 != 0⟩

/-! ### Concrete sample values, used below to instantiate the theorems -/

/-- A concrete finalizer writing an all-zero output buffer. -/
def zeroFz : Finalizer := fun _ _ => 0

/-- The bytes of the ASCII string "hello". -/
def helloBytes : List Nat := [104, 101, 108, 108, 111]

/-- An existing readable regular file holding `helloBytes`. -/
def goodState : PathState := ⟨true, true, true, helloBytes, false⟩

/-- An existing regular file whose open fails. -/
def noOpenState : PathState := ⟨true, true, false, [], false⟩

/-- A two-file sample filesystem for batch hashing: "a" is readable,
anything else fails to open. -/
def fsSample : String → PathState := fun p => if p = "a" then goodState else noOpenState

/-- The hex rendering of `zeroFz`'s 32-byte output: 64 zero characters. -/
def zeros64 : String :=
  "0000000000000000000000000000000000000000000000000000000000000000"

/-- A probe of a symbolic link whose target is a directory: the
symlink-following status says directory, symlink_status says symlink. -/
def linkToDirProbe : ProbeInput :=
  ⟨"/r/l", "l", "", "/r", ⟨true, .directory, true, 0, 0, 448⟩⟩

/-! ### Helper lemmas about the read-and-update loop -/

theorem hashLoopFuel_zero_chunk :
    ∀ (fuel : Nat) (remaining acc : List Nat),
      hashLoopFuel 0 fuel remaining acc = none := by
  intro fuel
  induction fuel with
  | zero => intro remaining acc; rfl
  | succ f ih => intro remaining acc; simpa [hashLoopFuel] using ih remaining acc

theorem hashLoopFuel_of_lt (chunk : Nat) (hc : 1 ≤ chunk) :
    ∀ (fuel : Nat) (remaining acc : List Nat), remaining.length < fuel →
      hashLoopFuel chunk fuel remaining acc = some (acc ++ remaining) := by
  intro fuel
  induction fuel with
  | zero => intro remaining acc h; omega
  | succ f ih =>
    intro remaining acc h
    have hcz : ¬ chunk = 0 := by omega
    by_cases hlt : remaining.length < chunk
    · simp [hashLoopFuel, hcz, hlt]
    · have hrec := ih (remaining.drop chunk) (acc ++ remaining.take chunk)
        (by simp; omega)
      simp only [hashLoopFuel, if_neg hcz, if_neg hlt]
      rw [hrec, List.append_assoc, List.take_append_drop]

theorem loopConsumed_pos (chunk : Nat) (bytes : List Nat) (hc : 1 ≤ chunk) :
    loopConsumed chunk bytes = some bytes := by
  have := hashLoopFuel_of_lt chunk hc (bytes.length + 1) bytes []
    (Nat.lt_succ_self _)
  simpa [loopConsumed] using this

theorem loopConsumed_zero (bytes : List Nat) : loopConsumed 0 bytes = none :=
  hashLoopFuel_zero_chunk _ bytes []

theorem digestBytes_ne_nil (fz : Finalizer) (b : List Nat) :
    digestBytes fz b ≠ [] := by
  have h : (digestBytes fz b).length = BLAKE3_OUT_LEN := by
    simp [digestBytes, BLAKE3_OUT_LEN]
  intro hnil
  rw [hnil] at h
  simp [BLAKE3_OUT_LEN] at h

theorem hexDigest_ne_empty (bytes : List Nat) (h : bytes ≠ []) :
    hexDigest bytes ≠ "" := by
  match bytes, h with
  | b :: t, _ =>
    intro heq
    have hdata := congrArg String.data heq
    simp [hexDigest, hexByte] at hdata

/-! ### Helper lemmas about the batch result dictionary -/

theorem dictInsert_fresh (d : List (String × HashOut)) (k : String) (v : HashOut)
    (h : ∀ e ∈ d, e.1 ≠ k) : dictInsert d k v = d ++ [(k, v)] := by
  have hany : d.any (fun e => e.1 == k) = false := by
    simp only [List.any_eq_false, beq_iff_eq]
    exact h
  simp [dictInsert, hany]

theorem batchFold_eq_map (fz : Finalizer) (fs : String → PathState) :
    ∀ (ps : List String) (d : List (String × HashOut)),
      ps.Nodup → (∀ p ∈ ps, ∀ e ∈ d, e.1 ≠ p) →
      ps.foldl (fun d p => dictInsert d p (mergeOutcome (workerJob fz (fs p)))) d
        = d ++ ps.map (fun p => (p, mergeOutcome (workerJob fz (fs p)))) := by
  intro ps
  induction ps with
  | nil => intro d _ _; simp
  | cons q qs ih =>
    intro d hnd hdisj
    simp only [List.foldl_cons]
    rw [dictInsert_fresh d q _ (fun e he => hdisj q (by simp) e he)]
    rw [ih _ hnd.of_cons ?_]
    · simp
    · intro p hp e he
      rcases List.mem_append.1 he with h1 | h2
      · exact hdisj p (List.mem_cons_of_mem _ hp) e h1
      · have heq : e = (q, mergeOutcome (workerJob fz (fs q))) := by
          simpa using h2
        have hqp : q ≠ p := by
          intro hc
          exact (List.nodup_cons.1 hnd).1 (hc ▸ hp)
        rw [heq]
        exact hqp

theorem lookup_map_self (g : String → HashOut) :
    ∀ (ps : List String), ps.Nodup → ∀ p ∈ ps,
      dictLookup (ps.map (fun q => (q, g q))) p = some (g p) := by
  intro ps
  induction ps with
  | nil => intro _ p hp; simp at hp
  | cons q qs ih =>
    intro hnd p hp
    by_cases hpq : q = p
    · subst hpq
      simp [dictLookup]
    · have hmem : p ∈ qs := by
        rcases List.mem_cons.1 hp with h | h
        · exact absurd h.symm hpq
        · exact h
      have hfalse : (q == p) = false := beq_eq_false_iff_ne.2 hpq
      simpa [dictLookup, List.find?, hfalse] using ih hnd.of_cons p hmem

/-! ### Helper lemmas about the directory walker -/

theorem truncateEntries_nil (k : Nat) : truncateEntries k [] = [] := by
  cases k <;> simp [truncateEntries]

theorem scanEntries_append (mD : Nat) (hid : Bool) (fc sc : Int) (par : String)
    (dep : Nat) (xs ys : List Entry) :
    scanEntries mD hid fc sc par dep (xs ++ ys)
      = ((scanEntries mD hid fc sc par dep xs).1
          ++ (scanEntries mD hid fc sc par dep ys).1,
         (scanEntries mD hid fc sc par dep xs).2
          ++ (scanEntries mD hid fc sc par dep ys).2) := by
  induction xs with
  | nil => simp [scanEntries]
  | cons e rest ih => simp [scanEntries, ih]

theorem scanOne_skip (mD : Nat) (hid : Bool) (fc sc : Int) (par : String)
    (dep : Nat) (e : Entry) (hp : 0 < mD) (hd : mD ≤ dep) :
    scanOne mD hid fc sc par dep e = ([], []) := by
  have hc : mD > 0 ∧ dep ≥ mD := ⟨hp, hd⟩
  rw [scanOne.eq_def, if_pos hc]

theorem scanEntries_skip (mD : Nat) (hid : Bool) (fc sc : Int) (par : String)
    (dep : Nat) (es : List Entry) (hp : 0 < mD) (hd : mD ≤ dep) :
    scanEntries mD hid fc sc par dep es = ([], []) := by
  induction es with
  | nil => rfl
  | cons e rest ih => simp [scanEntries, scanOne_skip mD hid fc sc par dep e hp hd, ih]

theorem scan_truncate_aux (hid : Bool) (fc sc : Int) (d : Nat) :
    ∀ (N : Nat) (es : List Entry) (par : String) (dep : Nat),
      sizeOf es ≤ N → dep < d →
      scanEntries d hid fc sc par dep es
        = scanEntries 0 hid fc sc par dep (truncateEntries (d - dep) es) := by
  intro N
  induction N with
  | zero =>
    intro es par dep hsz _
    cases es <;> simp at hsz
  | succ N ih =>
    intro es par dep hsz hdep
    have hnd : ¬ (d > 0 ∧ dep ≥ d) := by omega
    match es with
    | [] => simp [scanEntries, truncateEntries_nil]
    | e :: rest =>
      have hd1 : d - dep = (d - (dep + 1)) + 1 := by omega
      have hszrest : sizeOf rest ≤ N := by
        simp [List.cons.sizeOf_spec] at hsz
        omega
      have hrest := ih rest par dep hszrest hdep
      rw [hd1] at hrest ⊢
      match e with
      | .bad n m =>
        simp [scanEntries, truncateEntries, scanOne, entryName, hnd, hrest]
      | .file n sz ft =>
        simp [scanEntries, truncateEntries, scanOne, entryName, hnd, hrest]
      | .link n t ft =>
        simp [scanEntries, truncateEntries, scanOne, entryName, hnd, hrest]
      | .dir n ft cs =>
        have hszcs : sizeOf cs ≤ N := by
          simp [List.cons.sizeOf_spec, Entry.dir.sizeOf_spec] at hsz
          omega
        by_cases hlt : dep + 1 < d
        · have hsub := ih cs (par ++ "/" ++ n) (dep + 1) hszcs hlt
          simp [scanEntries, truncateEntries, scanOne, entryName, hnd, hrest, hsub]
        · have hdeq : d - (dep + 1) = 0 := by omega
          have hskip := scanEntries_skip d hid fc sc (par ++ "/" ++ n) (dep + 1) cs
            (by omega) (by omega)
          simp [scanEntries, truncateEntries, scanOne, entryName, hnd, hrest, hskip, hdeq]

theorem scan_prune_aux (mD : Nat) (fc sc : Int) :
    ∀ (N : Nat) (es : List Entry) (par : String) (dep : Nat), sizeOf es ≤ N →
      scanEntries mD false fc sc par dep es
        = scanEntries mD true fc sc par dep (pruneHidden es) := by
  intro N
  induction N with
  | zero =>
    intro es par dep hsz
    cases es <;> simp at hsz
  | succ N ih =>
    intro es par dep hsz
    match es with
    | [] => simp [scanEntries, pruneHidden]
    | e :: rest =>
      have hszrest : sizeOf rest ≤ N := by
        simp [List.cons.sizeOf_spec] at hsz
        omega
      have hrest := ih rest par dep hszrest
      by_cases hhid : isHiddenName (entryName e) = true
      · have hone : scanOne mD false fc sc par dep e = ([], []) := by
          rw [scanOne.eq_def]
          by_cases hskip : mD > 0 ∧ dep ≥ mD
          · rw [if_pos hskip]
          · rw [if_neg hskip, if_pos ⟨rfl, hhid⟩]
        cases e <;> simp [entryName] at hhid <;>
          simp [scanEntries, pruneHidden, entryName, hhid, hone, hrest]
      · match e with
        | .bad n m =>
          simp [entryName] at hhid
          simp [scanEntries, pruneHidden, entryName, scanOne, hhid, hrest]
        | .file n sz ft =>
          simp [entryName] at hhid
          simp [scanEntries, pruneHidden, entryName, scanOne, hhid, hrest]
        | .link n t ft =>
          simp [entryName] at hhid
          simp [scanEntries, pruneHidden, entryName, scanOne, hhid, hrest]
        | .dir n ft cs =>
          have hszcs : sizeOf cs ≤ N := by
            simp [List.cons.sizeOf_spec, Entry.dir.sizeOf_spec] at hsz
            omega
          have hsub := ih cs (par ++ "/" ++ n) (dep + 1) hszcs
          simp [entryName] at hhid
          simp [scanEntries, pruneHidden, entryName, scanOne, hhid, hrest, hsub]

/-! ### Claims -/

/-- C10: for an existing, readable regular file the read-and-update loop of
calculate_blake3 terminates whenever chunk_size >= 1 (each iteration either
consumes at least one byte or reaches end-of-stream), so the call produces a
value; the precondition is necessary, since with chunk_size = 0 each read
consumes nothing, the loop makes no progress, and the call diverges. -/
theorem hash_loop_termination (fz : Finalizer) (p : String) (st : PathState)
    (chunk : Nat) (hpe : st.pexists = true) (hre : st.isRegular = true)
    (hop : st.openOk = true) :
    (1 ≤ chunk → (calculate_blake3 fz p st chunk).isSome = true)
    ∧ calculate_blake3 fz p st 0 = none := by
  constructor
  · intro hc
    simp [calculate_blake3, hpe, hre, hop, loopConsumed_pos chunk st.bytes hc]
    cases st.readBad <;> simp
  · simp [calculate_blake3, hpe, hre, hop, loopConsumed_zero]

theorem hash_loop_termination_witness :
    (calculate_blake3 zeroFz "a" goodState 17).isSome = true
    ∧ calculate_blake3 zeroFz "a" goodState 0 = none :=
  ⟨(hash_loop_termination zeroFz "a" goodState 17 rfl rfl rfl).1 (by decide),
   (hash_loop_termination zeroFz "a" goodState 0 rfl rfl rfl).2⟩

/-- C6: for every file state and every pair of positive chunk sizes,
calculate_blake3 returns the identical result — the digest depends only on
the file bytes fed to the (chunk-boundary-insensitive) hasher, never on
chunk_size. -/
theorem hash_file_chunk_size_independent (fz : Finalizer) (p : String)
    (st : PathState) (c1 c2 : Nat) (h1 : 1 ≤ c1) (h2 : 1 ≤ c2) :
    calculate_blake3 fz p st c1 = calculate_blake3 fz p st c2 := by
  simp [calculate_blake3, loopConsumed_pos c1 st.bytes h1,
    loopConsumed_pos c2 st.bytes h2]

theorem hash_file_chunk_size_independent_witness :
    calculate_blake3 zeroFz "a" goodState 1 = calculate_blake3 zeroFz "a" goodState 17 :=
  hash_file_chunk_size_independent zeroFz "a" goodState 1 17 (by decide) (by decide)

/-- C2: for pairwise-distinct input paths and any worker count,
calculate_blake3_batch returns exactly one mapping entry per input path —
no duplicates, no omissions — and each path's entry is the outcome of its
own worker job (a hex digest or an error description), so one path's failure
is confined to that path's entry and never aborts the others or the call. -/
theorem batch_one_entry_per_path (fz : Finalizer) (fs : String → PathState)
    (paths : List String) (t : Int) (hnd : paths.Nodup) :
    (calculate_blake3_batch fz fs paths t).map Prod.fst = paths
    ∧ ∀ p ∈ paths, dictLookup (calculate_blake3_batch fz fs paths t) p
        = some (mergeOutcome (workerJob fz (fs p))) := by
  have heq : calculate_blake3_batch fz fs paths t
      = paths.map (fun p => (p, mergeOutcome (workerJob fz (fs p)))) := by
    have h := batchFold_eq_map fz fs paths [] hnd (by intro p hp e he; simp at he)
    simpa [calculate_blake3_batch] using h
  constructor
  · rw [heq]
    simp [Function.comp_def]
  · intro p hp
    rw [heq]
    exact lookup_map_self _ paths hnd p hp

theorem batch_one_entry_per_path_witness :
    (calculate_blake3_batch zeroFz fsSample ["a", "b"] 0).map Prod.fst = ["a", "b"]
    ∧ dictLookup (calculate_blake3_batch zeroFz fsSample ["a", "b"] 0) "b"
        = some (HashOut.err "Cannot open file") := by
  have h := batch_one_entry_per_path zeroFz fsSample ["a", "b"] 0 (by decide)
  refine ⟨h.1, ?_⟩
  rw [h.2 "b" (by simp)]
  decide

/-- C3: a batch mapping entry that is a digest equals the result of running
calculate_blake3 individually on that path over the same file bytes (an
existing regular file), for every positive chunk size: the batch worker's
hashing procedure refines the single-file hasher. -/
theorem batch_digest_matches_single_hasher (fz : Finalizer)
    (fs : String → PathState) (paths : List String) (t : Int) (p h : String)
    (chunk : Nat) (hnd : paths.Nodup) (hp : p ∈ paths)
    (hdig : dictLookup (calculate_blake3_batch fz fs paths t) p
      = some (.digest h))
    (hpe : (fs p).pexists = true) (hre : (fs p).isRegular = true)
    (hc : 1 ≤ chunk) :
    calculate_blake3 fz p (fs p) chunk = some (.ok h) := by
  have heq : calculate_blake3_batch fz fs paths t
      = paths.map (fun q => (q, mergeOutcome (workerJob fz (fs q)))) := by
    have h2 := batchFold_eq_map fz fs paths [] hnd (by intro q hq e he; simp at he)
    simpa [calculate_blake3_batch] using h2
  rw [heq, lookup_map_self _ paths hnd p hp] at hdig
  cases hop : (fs p).openOk with
  | false => simp [workerJob, mergeOutcome, hop] at hdig
  | true =>
    cases hbad : (fs p).readBad with
    | true =>
      simp [workerJob, mergeOutcome, hop, hbad,
        loopConsumed_pos 1048576 (fs p).bytes (by omega)] at hdig
    | false =>
      have hne := hexDigest_ne_empty (digestBytes fz (fs p).bytes)
        (digestBytes_ne_nil fz (fs p).bytes)
      simp [workerJob, mergeOutcome, hop, hbad,
        loopConsumed_pos 1048576 (fs p).bytes (by omega), hne] at hdig
      simp [calculate_blake3, hpe, hre, hop, hbad,
        loopConsumed_pos chunk (fs p).bytes hc, hdig]

theorem batch_digest_matches_single_hasher_witness :
    calculate_blake3 zeroFz "a" (fsSample "a") 7 = some (.ok zeros64) :=
  batch_digest_matches_single_hasher zeroFz fsSample ["a", "b"] 0 "a" zeros64 7
    (by decide) (by simp) (by decide) (by decide) (by decide) (by decide)

/-- C7: every recorded modification time equals
wall_clock_now + (file_mtime - file_clock_now) truncated to whole seconds,
and get_file_info computes its mtime by the identical method, so for the
same file time and the same clock readings the walker and the prober yield
the same modified_at value. -/
theorem mtime_reconciliation_formula (fc sc ft : Int) (sz : Nat)
    (par n : String) (inp : ProbeInput) (hpe : inp.stat.pexists = true) :
    (scanOne 0 true fc sc par 0 (.file n sz ft)).1.map FileInfo.mtime
      = [(sc + (ft - fc)).tdiv nsPerSec]
    ∧ (get_file_info fc sc inp).toOption.map FileMetadata.mtime
      = some ((sc + (inp.stat.ftime - fc)).tdiv nsPerSec)
    ∧ scanReconcileMtime ft fc sc = probeReconcileMtime ft fc sc := by
  refine ⟨?_, ?_, rfl⟩
  · simp [scanOne, entryName, scanReconcileMtime]
  · simp [get_file_info, hpe, probeReconcileMtime, Except.toOption]

theorem mtime_reconciliation_formula_witness :
    (scanOne 0 true 5 3 "/r" 0 (.file "a" 1 12)).1.map FileInfo.mtime
      = [((3 : Int) + (12 - 5)).tdiv nsPerSec]
    ∧ (get_file_info 5 3 linkToDirProbe).toOption.map FileMetadata.mtime
      = some ((3 + (linkToDirProbe.stat.ftime - 5)).tdiv nsPerSec) := by
  have h := mtime_reconciliation_formula 5 3 12 1 "/r" "a" linkToDirProbe rfl
  exact ⟨h.1, h.2.1⟩

/-- C9 counterexample: on a symbolic link pointing at a directory,
get_file_info reports is_symlink = true but also is_directory = true: the
non-symlink type fields are computed from the symlink-following fs::status
and describe the target, not the link's own (non-directory) nature, so the
claim fails at this input. -/
theorem stat_symlink_type_follows_target :
    (get_file_info 0 0 linkToDirProbe).toOption.map FileMetadata.is_symlink
      = some true
    ∧ (get_file_info 0 0 linkToDirProbe).toOption.map FileMetadata.is_directory
      = some true := by
  decide

/-- C9 amended: for every existing path, is_symlink is taken from
symlink_status while all six non-symlink type fields are taken from the
symlink-following status — for a symlink they describe the target, and a
symlink pointing at a directory reports is_symlink = true together with a
directory classification. -/
theorem stat_type_fields_from_followed_status (fc sc : Int) (inp : ProbeInput)
    (hpe : inp.stat.pexists = true) :
    (get_file_info fc sc inp).toOption.map
        (fun md => (md.is_symlink, md.is_regular_file, md.is_directory,
          md.is_block_file, md.is_character_file, md.is_fifo, md.is_socket))
      = some (inp.stat.linkIsSymlink, inp.stat.statusType == .regular,
          inp.stat.statusType == .directory, inp.stat.statusType == .blockDev,
          inp.stat.statusType == .charDev, inp.stat.statusType == .fifo,
          inp.stat.statusType == .socket) := by
  simp [get_file_info, hpe, Except.toOption]

theorem stat_type_fields_from_followed_status_witness :
    (get_file_info 0 0 linkToDirProbe).toOption.map
        (fun md => (md.is_symlink, md.is_regular_file, md.is_directory,
          md.is_block_file, md.is_character_file, md.is_fifo, md.is_socket))
      = some (true, false, true, false, false, false, false) := by
  rw [stat_type_fields_from_followed_status 0 0 linkToDirProbe rfl]
  rfl

/-- C8: evaluating the walker on a symbolic link whose target is a
directory: the record has size = 0 and is_symlink = true as documented, but
is_directory = true — entry.is_directory() follows the link and classifies
the target, contradicting the in-source comment (and the spec) that the
link's own information, not the target's, is recorded. -/
theorem symlink_record_classifies_target :
    scanEntries 0 true 0 0 "/r" 0 [Entry.link "l" true 0]
      = ([⟨"/r/l", "l", 0, 0, true, true⟩], []) := by
  decide

/-- C1 counterexample: a traversal that caught a per-entry failure has a
nonempty internal diagnostics list, yet the value scandir_recursive returns
carries only the collected records — it does not contain the diagnostic,
and is even independent of the diagnostic's text — so the claim that the
accumulated diagnostics are part of the returned result fails. -/
theorem scan_returns_no_diagnostics :
    (scanEntries 0 true 0 0 "/r" 0 [Entry.bad "x" "m1", Entry.file "a.txt" 5 0]).2
      = ["m1"]
    ∧ scandir_recursive 0 0 (.ok "/r" [Entry.bad "x" "m1", Entry.file "a.txt" 5 0]) 0 true
      = .ok [⟨"/r/a.txt", "a.txt", 5, 0, false, false⟩]
    ∧ scandir_recursive 0 0 (.ok "/r" [Entry.bad "x" "m1", Entry.file "a.txt" 5 0]) 0 true
      = scandir_recursive 0 0 (.ok "/r" [Entry.bad "x" "m2", Entry.file "a.txt" 5 0]) 0 true := by
  exact ⟨by decide, rfl, rfl⟩

/-- C1 amended: a per-entry failure is caught, appended to the internal
diagnostics list, and traversal continues — the records of the entries after
the failing one are still collected — but the diagnostics are not part of
the return value: provided none carries the distinguished "Fatal error:"
marker, scandir_recursive returns exactly the collected records and nothing
else. -/
theorem scan_continues_past_entry_failures (fc sc : Int)
    (root n m : String) (pre post : List Entry)
    (hnf : ∀ e ∈ (scanEntries 0 true fc sc root 0 (pre ++ Entry.bad n m :: post)).2,
      isFatalMarked e = false) :
    scandir_recursive fc sc (.ok root (pre ++ Entry.bad n m :: post)) 0 true
      = .ok ((scanEntries 0 true fc sc root 0 pre).1
          ++ (scanEntries 0 true fc sc root 0 post).1)
    ∧ (scanEntries 0 true fc sc root 0 (pre ++ Entry.bad n m :: post)).2
      = (scanEntries 0 true fc sc root 0 pre).2
          ++ m :: (scanEntries 0 true fc sc root 0 post).2 := by
  have hbadone : scanOne 0 true fc sc root 0 (Entry.bad n m) = ([], [m]) := by
    simp [scanOne, entryName]
  have hall : scanEntries 0 true fc sc root 0 (pre ++ Entry.bad n m :: post)
      = ((scanEntries 0 true fc sc root 0 pre).1
          ++ (scanEntries 0 true fc sc root 0 post).1,
         (scanEntries 0 true fc sc root 0 pre).2
          ++ m :: (scanEntries 0 true fc sc root 0 post).2) := by
    rw [scanEntries_append]
    simp [scanEntries, hbadone]
  rw [hall] at hnf
  have hnone : List.find? (fun e => isFatalMarked e)
      ((scanEntries 0 true fc sc root 0 pre).2
        ++ m :: (scanEntries 0 true fc sc root 0 post).2) = none :=
    List.find?_eq_none.mpr (fun x hx => by simp [hnf x hx])
  constructor
  · simp only [scandir_recursive, hall, hnone]
  · rw [hall]

theorem scan_continues_past_entry_failures_witness :
    scandir_recursive 0 0
        (.ok "/r" ([Entry.file "p" 1 0] ++ Entry.bad "x" "boom" :: [Entry.file "q" 2 0])) 0 true
      = .ok ((scanEntries 0 true 0 0 "/r" 0 [Entry.file "p" 1 0]).1
          ++ (scanEntries 0 true 0 0 "/r" 0 [Entry.file "q" 2 0]).1)
    ∧ (scanEntries 0 true 0 0 "/r" 0
          ([Entry.file "p" 1 0] ++ Entry.bad "x" "boom" :: [Entry.file "q" 2 0])).2
      = (scanEntries 0 true 0 0 "/r" 0 [Entry.file "p" 1 0]).2
          ++ "boom" :: (scanEntries 0 true 0 0 "/r" 0 [Entry.file "q" 2 0]).2 :=
  scan_continues_past_entry_failures 0 0 "/r" "x" "boom"
    [Entry.file "p" 1 0] [Entry.file "q" 2 0] (by decide)

/-- C4: with a positive depth limit d, scanning equals the unbounded scan of
the tree truncated at nesting depth d (1-based below the root): an entry at
nesting depth at most d is still recorded, nothing is descended into beyond
the limit, and deeper entries are simply absent from records and diagnostics
alike rather than causing an error. -/
theorem depth_limit_truncates_scan (fc sc : Int) (root : String)
    (cs : List Entry) (d : Nat) (hid : Bool) (hd : 0 < d) :
    scandir_recursive fc sc (.ok root cs) d hid
      = scandir_recursive fc sc (.ok root (truncateEntries d cs)) 0 hid := by
  have h := scan_truncate_aux hid fc sc d (sizeOf cs) cs root 0 le_rfl hd
  simp only [scandir_recursive, Nat.sub_zero] at h ⊢
  rw [h]

theorem depth_limit_truncates_scan_witness :
    scandir_recursive 0 0 (.ok "/r" [Entry.dir "d" 0 [Entry.file "x" 1 0]]) 1 true
      = scandir_recursive 0 0
          (.ok "/r" (truncateEntries 1 [Entry.dir "d" 0 [Entry.file "x" 1 0]])) 0 true
    ∧ (scandir_recursive 0 0 (.ok "/r" [Entry.dir "d" 0 [Entry.file "x" 1 0]]) 1 true).toOption
      = some [⟨"/r/d", "d", 0, 0, true, false⟩] :=
  ⟨depth_limit_truncates_scan 0 0 "/r" [Entry.dir "d" 0 [Entry.file "x" 1 0]] 1 true
      (by decide),
    by decide⟩

/-- C5: scanning with include_hidden = false equals scanning, with
include_hidden = true, the tree from which every hidden entry (name starting
with a dot) has been removed together with its entire subtree: a hidden
entry produces no record and no descendant records, while with
include_hidden = true hidden entries and their descendants are recorded like
any others. -/
theorem hidden_pruning_scan (fc sc : Int) (root : String) (cs : List Entry)
    (d : Nat) :
    scandir_recursive fc sc (.ok root cs) d false
      = scandir_recursive fc sc (.ok root (pruneHidden cs)) d true := by
  have h := scan_prune_aux d fc sc (sizeOf cs) cs root 0 le_rfl
  simp only [scandir_recursive]
  rw [h]

end FluxFile
